import Mathlib

/-!
Verification of the ralphex agent-orchestration core: a shallow embedding of
the runner state machine (pkg/runner), its prompt builders, the signal
helpers, the unbounded line reader and the progress-log open logic, with
theorems settling the specification claims about them.

Strings model Go strings; one Lean `Char` stands for one byte of agent
output.  Executors are modelled as total functions from the number of
invocations already made to the `Result` of the next invocation (the shape
of the repository's own mock executor), and each run function also returns
the list of prompts it sent, so invocation counts and prompt contents are
observable.  Context cancellation is modelled as never firing (no claim
below concerns cancellation).
-/

namespace Ralphex

/-- Result of one executor invocation (pkg/executor.Result as consumed by
the runner): accumulated output, detected signal, and the invocation
error, modelled as an optional message string. -/
structure Result where
  Output : String
  Signal : String
  Error  : Option String

/-- Signal constant COMPLETED (pkg/runner signal constants). -/
def SignalCompleted : String := "COMPLETED"

/-- Signal constant FAILED. -/
def SignalFailed : String := "FAILED"

/-- Signal constant REVIEW_DONE. -/
def SignalReviewDone : String := "REVIEW_DONE"

/-- Signal constant CODEX_DONE. -/
def SignalCodexDone : String := "CODEX_DONE"

/-- IsTerminalSignal returns true if signal indicates execution should stop. -/
def IsTerminalSignal (signal : String) : Bool :=
  signal == SignalCompleted || signal == SignalFailed

/-- IsReviewDone returns true if signal indicates review phase is complete. -/
def IsReviewDone (signal : String) : Bool :=
  signal == SignalReviewDone

/-- IsCodexDone returns true if signal indicates codex phase is complete. -/
def IsCodexDone (signal : String) : Bool :=
  signal == SignalCodexDone

/-- Boolean prefix test on character lists, used to express the substring
containment that fmt-built prompts and error messages are checked for. -/
def isPrefB : List Char → List Char → Bool
  | [], _ => true
  | _ :: _, [] => false
  | a :: as, b :: bs => a == b && isPrefB as bs

/-- Boolean substring test: hasInfixB pat hay is true when pat occurs
contiguously inside hay. -/
def hasInfixB (pat : List Char) : List Char → Bool
  | [] => pat.isEmpty
  | c :: tl => isPrefB pat (c :: tl) || hasInfixB pat tl

/-- Last n characters of a string, modelling the Go slice s[len(s)-n:]. -/
def lastN (s : String) (n : Nat) : String :=
  String.mk (s.data.drop (s.data.length - n))

/-- buildTaskPrompt creates the prompt for task execution phase
(pkg/runner/prompts.go).  File access is abstracted as the readFile
argument; a read failure yields the wrapped read-plan-file error. -/
def buildTaskPrompt (readFile : String → Except String String)
    (planFile : String) (iteration : Nat) : Except String String :=
  match readFile planFile with
  | .error e => .error ("read plan file: " ++ e)
  | .ok planContent => .ok
      ("You are executing a plan autonomously. " ++
       "This is iteration " ++ toString iteration ++ ".\n\n" ++
       "## Plan\n\n" ++
       planContent ++
       "\n\n## Instructions\n\n" ++
       "1. Review the plan and identify the next incomplete task\n" ++
       "2. Execute the task, making necessary code changes\n" ++
       "3. Run tests to verify your changes work\n" ++
       "4. Update the plan file to mark completed tasks with [x]\n" ++
       "5. If all tasks are complete, output COMPLETED\n" ++
       "6. If you encounter a blocking issue, output FAILED with explanation\n" ++
       "7. Otherwise, continue to the next task\n\n" ++
       "Important: Only output COMPLETED or FAILED as terminal signals. " ++
       "Do not output these words in any other context.\n")

/-- buildFirstReviewPrompt creates the prompt for first review pass. -/
def buildFirstReviewPrompt : String :=
  "You are reviewing code changes for quality and correctness.\n\n" ++
  "## Instructions\n\n" ++
  "1. Run `git diff` to see all uncommitted changes\n" ++
  "2. Review each changed file for:\n" ++
  "   - Code correctness and logic errors\n" ++
  "   - Error handling completeness\n" ++
  "   - Test coverage for new code\n" ++
  "   - Code style and naming conventions\n" ++
  "   - Potential security issues\n" ++
  "3. If you find issues, fix them directly\n" ++
  "4. Run tests after making fixes\n" ++
  "5. When review is complete and all issues are fixed, output REVIEW_DONE\n" ++
  "6. If you encounter a blocking issue you cannot fix, output FAILED\n\n" ++
  "Important: Only output REVIEW_DONE or FAILED as terminal signals.\n"

/-- buildSecondReviewPrompt creates the prompt for second review pass
(after Codex), embedding the codex findings verbatim. -/
def buildSecondReviewPrompt (codexFindings : String) : String :=
  "You are reviewing code based on external analysis findings.\n\n" ++
  "## Codex Analysis Findings\n\n" ++
  codexFindings ++
  "\n\n## Instructions\n\n" ++
  "1. Review each finding from the Codex analysis\n" ++
  "2. For valid issues, implement fixes directly\n" ++
  "3. For false positives or non-issues, skip them\n" ++
  "4. Run tests after making fixes\n" ++
  "5. When all valid findings are addressed, output REVIEW_DONE\n" ++
  "6. If you encounter a blocking issue, output FAILED\n\n" ++
  "Important: Only output REVIEW_DONE or FAILED as terminal signals.\n"

/-- buildCodexPrompt creates the prompt for Codex analysis. -/
def buildCodexPrompt : String :=
  "Analyze the current git diff for code quality issues.\n\n" ++
  "Focus on:\n" ++
  "1. Logic errors and bugs\n" ++
  "2. Missing error handling\n" ++
  "3. Security vulnerabilities\n" ++
  "4. Performance issues\n" ++
  "5. Code that doesn't match the surrounding style\n\n" ++
  "For each issue found, provide:\n" ++
  "- File and line number\n" ++
  "- Description of the issue\n" ++
  "- Suggested fix\n\n" ++
  "If no significant issues are found, state that the code looks good.\n\n" ++
  "Output CODEX_DONE when analysis is complete."

/-- buildContinuePrompt creates a prompt to continue after previous
iteration, truncating the previous output to its last 500 characters. -/
def buildContinuePrompt (previousOutput : String) : String :=
  let output :=
    if 500 < previousOutput.length then lastN previousOutput 500
    else previousOutput
  "Continue from where you left off.\n\n" ++
  "## Previous Output (last 500 chars)\n\n" ++
  output ++
  "\n\n" ++
  "Continue executing tasks. Remember to output COMPLETED when done or FAILED if blocked.\n"

/-- Fixed text of buildContinuePrompt before the embedded output window. -/
def contPre : String :=
  "Continue from where you left off.\n\n" ++
  "## Previous Output (last 500 chars)\n\n"

/-- Fixed text of buildContinuePrompt after the embedded output window. -/
def contSuf : String :=
  "\n\n" ++
  "Continue executing tasks. Remember to output COMPLETED when done or FAILED if blocked.\n"

/-- The trailing window of the previous output that buildContinuePrompt
embeds: the whole string at length at most 500, its last 500 characters
otherwise. -/
def contTrunc (previousOutput : String) : String :=
  if 500 < previousOutput.length then lastN previousOutput 500
  else previousOutput

/-- Config holds runner configuration (pkg/runner Config).  MaxIterations
is modelled as a natural number: a non-positive Go value makes the task
loop body run zero times, exactly as 0 does here. -/
structure Config where
  PlanFile      : String
  Mode          : String
  MaxIterations : Nat
  Debug         : Bool
  NoColor       : Bool

/-- Mode constant full. -/
def ModeFull : String := "full"

/-- Mode constant review. -/
def ModeReview : String := "review"

/-- Mode constant codex-only. -/
def ModeCodexOnly : String := "codex-only"

/-- An executor, modelled as the repository's own mock: the Result of the
next invocation as a function of how many invocations were already made. -/
def Exec : Type := Nat → Result

/-- Task-phase loop body of runTaskPhase.  The Go loop runs i from 1 while
i is at most MaxIterations; here `remaining` counts the iterations the
loop may still perform (maxIter plus 1 minus i), so the recursion is
structural, and `i` carries the Go iteration counter.  `calls` is the
list of prompts sent to the claude executor so far, whose length is the
invocation count. -/
def taskLoop (claude : Exec) (readFile : String → Except String String)
    (planFile : String) (maxIter : Nat) :
    Nat → Nat → String → List String → Except String Unit × List String
  | 0, _, _, calls =>
      (.error ("max iterations (" ++ toString maxIter ++
               ") reached without completion"), calls)
  | remaining + 1, i, lastOutput, calls =>
    let prompt? :=
      if i == 1 then buildTaskPrompt readFile planFile i
      else .ok (buildContinuePrompt lastOutput)
    match prompt? with
    | .error e => (.error e, calls)
    | .ok prompt =>
      let result := claude calls.length
      let calls2 := calls ++ [prompt]
      match result.Error with
      | some e => (.error ("claude execution: " ++ e), calls2)
      | none =>
        if IsTerminalSignal result.Signal then
          if result.Signal == SignalFailed then
            (.error "task execution failed (FAILED signal received)", calls2)
          else (.ok (), calls2)
        else taskLoop claude readFile planFile maxIter remaining (i + 1)
               result.Output calls2

/-- runTaskPhase executes tasks until completion or max iterations,
starting from the claude prompt trace `calls`. -/
def runTaskPhase (claude : Exec) (readFile : String → Except String String)
    (planFile : String) (maxIter : Nat) (calls : List String) :
    Except String Unit × List String :=
  taskLoop claude readFile planFile maxIter maxIter 1 "" calls

/-- Review iteration cap (the maxReviewIterations constant of
runClaudeReview). -/
def maxReviewIterations : Nat := 10

/-- Review-phase loop body of runClaudeReview, with the same
remaining-iterations structural recursion as taskLoop. -/
def reviewLoop (claude : Exec) :
    Nat → String → List String → Except String Unit × List String
  | 0, _, calls =>
      (.error ("max review iterations (" ++ toString maxReviewIterations ++
               ") reached"), calls)
  | remaining + 1, prompt, calls =>
    let result := claude calls.length
    let calls2 := calls ++ [prompt]
    match result.Error with
    | some e => (.error ("claude execution: " ++ e), calls2)
    | none =>
      if result.Signal == SignalFailed then
        (.error "review failed (FAILED signal received)", calls2)
      else if IsReviewDone result.Signal then
        (.ok (), calls2)
      else
        reviewLoop claude remaining (buildContinuePrompt result.Output) calls2

/-- runClaudeReview runs Claude review with the given prompt until
REVIEW_DONE, failing on FAILED or after maxReviewIterations iterations. -/
def runClaudeReview (claude : Exec) (prompt : String) (calls : List String) :
    Except String Unit × List String :=
  reviewLoop claude maxReviewIterations prompt calls

/-- runCodexPhase runs Codex analysis once and returns findings; the
returned list is the codex prompt trace. -/
def runCodexPhase (codex : Exec) (codexCalls : List String) :
    Except String String × List String :=
  let result := codex codexCalls.length
  let calls2 := codexCalls ++ [buildCodexPrompt]
  match result.Error with
  | some e => (.error ("codex execution: " ++ e), calls2)
  | none =>
    if result.Output == "" then (.ok "", calls2)
    else (.ok result.Output, calls2)

/-- runFull executes the complete pipeline: tasks, first review, codex
analysis, then a second review only when codex produced findings.  The
result carries the claude prompt trace and the codex prompt trace. -/
def runFull (cfg : Config) (claude codex : Exec)
    (readFile : String → Except String String) :
    Except String Unit × List String × List String :=
  if cfg.PlanFile == "" then
    (.error "plan file required for full mode", [], [])
  else
    match runTaskPhase claude readFile cfg.PlanFile cfg.MaxIterations [] with
    | (.error e, c) => (.error ("task phase: " ++ e), c, [])
    | (.ok _, c0) =>
      match runClaudeReview claude buildFirstReviewPrompt c0 with
      | (.error e, c) => (.error ("first review: " ++ e), c, [])
      | (.ok _, c1) =>
        match runCodexPhase codex [] with
        | (.error e, x) => (.error ("codex phase: " ++ e), c1, x)
        | (.ok findings, x) =>
          if findings == "" then (.ok (), c1, x)
          else
            match runClaudeReview claude (buildSecondReviewPrompt findings) c1 with
            | (.error e, c2) => (.error ("second review: " ++ e), c2, x)
            | (.ok _, c2) => (.ok (), c2, x)

/-- runReviewOnly executes only the review pipeline: review, codex, then a
second review when findings exist.  The configuration and the plan-file
reader are passed as the Go method receives them but are never consulted. -/
def runReviewOnly (_cfg : Config) (claude codex : Exec)
    (_readFile : String → Except String String) :
    Except String Unit × List String × List String :=
  match runClaudeReview claude buildFirstReviewPrompt [] with
  | (.error e, c) => (.error ("first review: " ++ e), c, [])
  | (.ok _, c1) =>
    match runCodexPhase codex [] with
    | (.error e, x) => (.error ("codex phase: " ++ e), c1, x)
    | (.ok findings, x) =>
      if findings == "" then (.ok (), c1, x)
      else
        match runClaudeReview claude (buildSecondReviewPrompt findings) c1 with
        | (.error e, c2) => (.error ("second review: " ++ e), c2, x)
        | (.ok _, c2) => (.ok (), c2, x)

/-- runCodexOnly executes only the codex pipeline: codex analysis, then a
review when findings exist. -/
def runCodexOnly (_cfg : Config) (claude codex : Exec)
    (_readFile : String → Except String String) :
    Except String Unit × List String × List String :=
  match runCodexPhase codex [] with
  | (.error e, x) => (.error ("codex phase: " ++ e), [], x)
  | (.ok findings, x) =>
    if findings == "" then (.ok (), [], x)
    else
      match runClaudeReview claude (buildSecondReviewPrompt findings) [] with
      | (.error e, c) => (.error ("review: " ++ e), c, x)
      | (.ok _, c) => (.ok (), c, x)

/-- Run executes the main loop based on configured mode (Runner.Run). -/
def runnerRun (cfg : Config) (claude codex : Exec)
    (readFile : String → Except String String) :
    Except String Unit × List String × List String :=
  if cfg.Mode == ModeFull then runFull cfg claude codex readFile
  else if cfg.Mode == ModeReview then runReviewOnly cfg claude codex readFile
  else if cfg.Mode == ModeCodexOnly then runCodexOnly cfg claude codex readFile
  else (.error ("unknown mode: " ++ cfg.Mode), [], [])

/-- Trailing trim over the cutset CR and LF, modelling
strings.TrimRight(line, CRLF): every trailing carriage return or newline
character is removed, however many there are. -/
def trimRightCRLF (l : List Char) : List Char :=
  (l.reverse.dropWhile (fun c => c == '\r' || c == '\n')).reverse

/-- Modelled from the spec: pkg/executor/linereader.go is not among the
source files; readLines is transcribed from the implementation given in
docs/plans/20260217-unbounded-line-reader.md.  The bufio ReadString loop
is rendered structurally: `acc` is the partial segment the reader has
consumed since the last newline; on a newline the segment (newline
included) is trimmed with trimRightCRLF and delivered; at end of input a
nonempty final partial segment is delivered likewise and an empty final
read delivers nothing.  The delivered lines are returned in order. -/
def linesLoop : List Char → List Char → List (List Char)
  | [], acc => if acc.isEmpty then [] else [trimRightCRLF acc]
  | c :: rest, acc =>
    if c == '\n' then trimRightCRLF (acc ++ ['\n']) :: linesLoop rest []
    else linesLoop rest (acc ++ [c])

/-- readLines delivers the lines of the input byte stream to the handler;
the model returns the delivered lines in order. -/
def readLines (input : List Char) : List (List Char) :=
  linesLoop input []

/-- Strip one trailing carriage return, the dropCR step of
bufio.ScanLines and of the terminator described by the claim. -/
def dropOneCR (l : List Char) : List Char :=
  if l.getLast? == some '\r' then l.dropLast else l

/-- Line delivery as the claim words it (second, spec-side definition for
comparison with readLines): each line terminator, bare LF or CR LF, is
stripped and nothing else is removed; a final partial line without a
terminator is delivered unaltered. -/
def claimLinesLoop : List Char → List Char → List (List Char)
  | [], acc => if acc.isEmpty then [] else [acc]
  | c :: rest, acc =>
    if c == '\n' then dropOneCR acc :: claimLinesLoop rest []
    else claimLinesLoop rest (acc ++ [c])

/-- Lines of a byte stream under the claim reading of terminator
stripping. -/
def claimLines (input : List Char) : List (List Char) :=
  claimLinesLoop input []

/-- Footer marker written by the progress logger Close and scanned for on
open. -/
def completedMarker : String := "Completed:"

/-- Modelled from the spec: pkg/progress/progress.go is not among the
source files; transcribed from the isProgressCompleted description in
docs/plans/completed/20260218-progress-fresh-start.md — read the last
256 bytes of the file and test them for the Completed: marker. -/
def isProgressCompleted (content : String) : Bool :=
  hasInfixB completedMarker.data
    (content.data.drop (content.data.length - 256))

/-- Modelled from the spec: the NewLogger open-time decision logic of
docs/plans/completed/20260218-progress-fresh-start.md, on the prior file
content (none for a missing file).  Size zero writes the fresh header; a
completed prior file is truncated and gets the fresh header; otherwise
the restart separator is appended after the preserved prior bytes. -/
def openProgress (prior : Option String) (header sep : String) : String :=
  match prior with
  | none => header
  | some c =>
    if c.length == 0 then header
    else if isProgressCompleted c then header
    else c ++ sep

/-- Completion footer written by the progress logger Close: the
Completed: marker, a timestamp and the elapsed duration. -/
def mkCompletionFooter (ts elapsed : String) : String :=
  "Completed: " ++ ts ++ " (" ++ elapsed ++ ")\n"

/-- Plan reader fixture that always succeeds. -/
def okRead : String → Except String String :=
  fun _ => .ok "# Plan\n- [ ] Task 1"

/-- Plan reader fixture that always fails, as os.ReadFile on a missing or
unreadable path. -/
def errRead : String → Except String String :=
  fun _ => .error "open plan.md: no such file or directory"

/-- Executor fixture emitting COMPLETED on every invocation. -/
def execCompleted : Exec := fun _ => ⟨"task done", "COMPLETED", none⟩

/-- Executor fixture that never emits a terminal signal. -/
def execNeverDone : Exec := fun _ => ⟨"working...", "", none⟩

/-- Executor fixture emitting REVIEW_DONE on every invocation. -/
def execReviewDone : Exec := fun _ => ⟨"review done", "REVIEW_DONE", none⟩

/-- Executor fixture emitting FAILED with an explanation in its output. -/
def execFailedLoud : Exec := fun _ => ⟨"disk is full", "FAILED", none⟩

/-- Executor fixture whose first result is non-terminal and whose second
emits REVIEW_DONE. -/
def execSlowReview : Exec :=
  fun k => if k == 0 then ⟨"still reviewing", "", none⟩
           else ⟨"done", "REVIEW_DONE", none⟩

/-- Executor fixture completing the task on call one and review on later
calls. -/
def execTaskThenReview : Exec :=
  fun k => if k == 0 then ⟨"task done", "COMPLETED", none⟩
           else ⟨"review done", "REVIEW_DONE", none⟩

/-- Codex executor fixture with non-empty findings. -/
def execCodexFinding : Exec := fun _ => ⟨"found issue in foo.go", "CODEX_DONE", none⟩

/-- Codex executor fixture with empty output. -/
def execCodexQuiet : Exec := fun _ => ⟨"", "CODEX_DONE", none⟩

/-- Codex executor fixture whose result carries the FAILED signal with no
error. -/
def execCodexFailedSignal : Exec := fun _ => ⟨"analysis findings text", "FAILED", none⟩

/-- Configuration fixture for full mode with a task cap of ten. -/
def cfgFull10 : Config := ⟨"plan.md", ModeFull, 10, false, false⟩

/-- Configuration fixture for review mode whose configured task maximum is
three, below the hardcoded review cap of ten. -/
def cfgReview3 : Config := ⟨"", ModeReview, 3, false, false⟩

/-- A 501-character string for exercising the continue-prompt window. -/
def bigZ : String := String.mk (List.replicate 501 'z')

/-- Strings with equal character data are equal. -/
theorem strExt {a b : String} (h : a.data = b.data) : a = b := by
  cases a
  cases b
  cases h
  rfl

/-- String append is associative. -/
theorem strAppend_assoc (a b c : String) : a ++ b ++ c = a ++ (b ++ c) :=
  strExt (List.append_assoc a.data b.data c.data)

/-- A list is a Boolean prefix of itself followed by anything. -/
theorem isPrefB_append (pat rest : List Char) : isPrefB pat (pat ++ rest) = true := by
  induction pat with
  | nil => rfl
  | cons a as ih => simp [isPrefB, ih]

/-- The empty pattern occurs in every list. -/
theorem hasInfixB_nil (l : List Char) : hasInfixB [] l = true := by
  induction l with
  | nil => rfl
  | cons c tl ih => simp [hasInfixB, isPrefB]

/-- A pattern occurs in any list that embeds it between two others. -/
theorem hasInfixB_of_append (p pat q : List Char) :
    hasInfixB pat (p ++ pat ++ q) = true := by
  induction p with
  | nil =>
    cases pat with
    | nil => simpa using hasInfixB_nil q
    | cons a as =>
      have h := isPrefB_append (a :: as) q
      simp only [List.nil_append, List.cons_append, hasInfixB]
      simp only [List.cons_append] at h
      simp [h]
  | cons c p' ih =>
    simp only [List.cons_append, hasInfixB, Bool.or_eq_true]
    right
    simpa [List.append_assoc] using ih

/-- A Boolean prefix decomposes the larger list. -/
theorem exists_of_isPrefB :
    ∀ pat l : List Char, isPrefB pat l = true → ∃ r, l = pat ++ r := by
  intro pat
  induction pat with
  | nil => exact fun l _ => ⟨l, rfl⟩
  | cons a as ih =>
    intro l h
    cases l with
    | nil => simp [isPrefB] at h
    | cons b bs =>
      simp only [isPrefB, Bool.and_eq_true] at h
      obtain ⟨r, hr⟩ := ih bs h.2
      exact ⟨r, by simp [eq_of_beq h.1, hr]⟩

/-- A Boolean substring occurrence decomposes the larger list. -/
theorem exists_of_hasInfixB :
    ∀ pat l : List Char, hasInfixB pat l = true → ∃ p q, l = p ++ pat ++ q := by
  intro pat l
  induction l with
  | nil =>
    intro h
    simp only [hasInfixB, List.isEmpty_iff] at h
    exact ⟨[], [], by simp [h]⟩
  | cons c tl ih =>
    intro h
    simp only [hasInfixB, Bool.or_eq_true] at h
    rcases h with h | h
    · obtain ⟨r, hr⟩ := exists_of_isPrefB pat (c :: tl) h
      exact ⟨[], r, by simp [hr]⟩
    · obtain ⟨p, q, hpq⟩ := ih h
      exact ⟨c :: p, q, by simp [hpq]⟩

/-- Substring containment between Lean strings coincides with the Boolean
substring test on their data, so concrete containment facts can be
settled by evaluation. -/
theorem string_contains_iff (pat s : String) :
    (∃ p q : String, s = p ++ pat ++ q) ↔ hasInfixB pat.data s.data = true := by
  constructor
  · rintro ⟨p, q, rfl⟩
    exact hasInfixB_of_append p.data pat.data q.data
  · intro h
    obtain ⟨p, q, hpq⟩ := exists_of_hasInfixB pat.data s.data h
    refine ⟨String.mk p, String.mk q, strExt ?_⟩
    simpa using hpq

/-- Being non-terminal for the task loop is exactly being neither
COMPLETED nor FAILED. -/
theorem IsTerminalSignal_eq_false_iff (s : String) :
    IsTerminalSignal s = false ↔ s ≠ SignalCompleted ∧ s ≠ SignalFailed := by
  simp [IsTerminalSignal]

/-- Task loop on an executor that never errors and never emits a terminal
signal: it exhausts its remaining iterations, invoking the executor once
per iteration, and reports the max-iterations error. -/
theorem taskLoop_nonterminal (claude : Exec)
    (readFile : String → Except String String) (pf pc : String) (N : Nat)
    (hrf : readFile pf = .ok pc)
    (h : ∀ k, (claude k).Error = none ∧ IsTerminalSignal (claude k).Signal = false) :
    ∀ r i out calls,
      (taskLoop claude readFile pf N r i out calls).1 =
        .error ("max iterations (" ++ toString N ++ ") reached without completion") ∧
      (taskLoop claude readFile pf N r i out calls).2.length = calls.length + r := by
  intro r
  induction r with
  | zero =>
    intro i out calls
    exact ⟨rfl, rfl⟩
  | succ r' ih =>
    intro i out calls
    obtain ⟨hE, hS⟩ := h calls.length
    by_cases h1 : (i == 1) = true
    · simp only [taskLoop, h1, if_true, buildTaskPrompt, hrf, hE, hS,
        Bool.false_eq_true, if_false]
      refine ⟨(ih _ _ _).1, ?_⟩
      rw [(ih _ _ _).2]
      simp [List.length_append]
      omega
    · simp only [taskLoop, if_neg h1, hE, hS, Bool.false_eq_true, if_false]
      refine ⟨(ih _ _ _).1, ?_⟩
      rw [(ih _ _ _).2]
      simp [List.length_append]
      omega

/-- Review loop on an executor that never errors, never fails and never
emits REVIEW_DONE: it exhausts its remaining iterations, invoking the
executor once per iteration, and reports the max-review-iterations
error. -/
theorem reviewLoop_nonterminal (claude : Exec)
    (h : ∀ k, (claude k).Error = none ∧ (claude k).Signal ≠ SignalFailed ∧
         IsReviewDone (claude k).Signal = false) :
    ∀ r prompt calls,
      (reviewLoop claude r prompt calls).1 =
        .error ("max review iterations (" ++ toString maxReviewIterations ++
                ") reached") ∧
      (reviewLoop claude r prompt calls).2.length = calls.length + r := by
  intro r
  induction r with
  | zero =>
    intro prompt calls
    exact ⟨rfl, rfl⟩
  | succ r' ih =>
    intro prompt calls
    obtain ⟨hE, hF, hD⟩ := h calls.length
    have hFb : ((claude calls.length).Signal == SignalFailed) = false := by
      simpa using hF
    simp only [reviewLoop, hE, hFb, hD, Bool.false_eq_true, if_false]
    refine ⟨(ih _ _).1, ?_⟩
    rw [(ih _ _).2]
    simp [List.length_append]
    omega

/-- Review loop with remaining iterations whose first result carries
REVIEW_DONE and no error succeeds after that single invocation. -/
theorem reviewLoop_first_done (claude : Exec) (r : Nat) (prompt : String)
    (calls : List String) (hE : (claude calls.length).Error = none)
    (hS : (claude calls.length).Signal = SignalReviewDone) :
    reviewLoop claude (r + 1) prompt calls = (.ok (), calls ++ [prompt]) := by
  simp [reviewLoop, hE, hS, IsReviewDone, SignalReviewDone, SignalFailed]

/-- Review loop whose first result carries FAILED and no error stops with
the fixed review-failure error after that single invocation. -/
theorem reviewLoop_first_failed (claude : Exec) (r : Nat) (prompt : String)
    (calls : List String) (hE : (claude calls.length).Error = none)
    (hS : (claude calls.length).Signal = SignalFailed) :
    reviewLoop claude (r + 1) prompt calls =
      (.error "review failed (FAILED signal received)", calls ++ [prompt]) := by
  simp [reviewLoop, hE, hS, SignalFailed]

/-- The review loop only ever appends to the prompt trace it is given. -/
theorem reviewLoop_trace (claude : Exec) :
    ∀ r prompt calls, ∃ ext, (reviewLoop claude r prompt calls).2 = calls ++ ext := by
  intro r
  induction r with
  | zero =>
    intro prompt calls
    exact ⟨[], by simp [reviewLoop]⟩
  | succ r' ih =>
    intro prompt calls
    rcases hE : (claude calls.length).Error with _ | e
    · by_cases hF : ((claude calls.length).Signal == SignalFailed) = true
      · exact ⟨[prompt], by simp [reviewLoop, hE, hF]⟩
      · by_cases hD : IsReviewDone (claude calls.length).Signal = true
        · exact ⟨[prompt], by simp [reviewLoop, hE, hF, hD]⟩
        · obtain ⟨ext, hext⟩ :=
            ih (buildContinuePrompt (claude calls.length).Output) (calls ++ [prompt])
          refine ⟨prompt :: ext, ?_⟩
          simp only [reviewLoop, hE, Bool.not_eq_true] at *
          simp [hF, hD, hext]
    · exact ⟨[prompt], by simp [reviewLoop, hE]⟩

/-- A review loop with at least one remaining iteration sends the prompt
it was given as the next executor invocation. -/
theorem reviewLoop_cons (claude : Exec) (r : Nat) (prompt : String)
    (calls : List String) :
    ∃ rest, (reviewLoop claude (r + 1) prompt calls).2 = calls ++ prompt :: rest := by
  rcases hE : (claude calls.length).Error with _ | e
  · by_cases hF : ((claude calls.length).Signal == SignalFailed) = true
    · exact ⟨[], by simp [reviewLoop, hE, hF]⟩
    · by_cases hD : IsReviewDone (claude calls.length).Signal = true
      · exact ⟨[], by simp [reviewLoop, hE, hF, hD]⟩
      · obtain ⟨ext, hext⟩ := reviewLoop_trace claude r
          (buildContinuePrompt (claude calls.length).Output) (calls ++ [prompt])
        refine ⟨ext, ?_⟩
        simp only [reviewLoop, hE, Bool.not_eq_true] at *
        simp [hF, hD, hext]
  · exact ⟨[], by simp [reviewLoop, hE]⟩

/-- Codex phase with an error-free result returns that result's output as
findings, whatever its signal, after exactly one codex invocation. -/
theorem runCodexPhase_ok (codex : Exec) (calls : List String)
    (hE : (codex calls.length).Error = none) :
    runCodexPhase codex calls =
      (.ok (codex calls.length).Output, calls ++ [buildCodexPrompt]) := by
  simp only [runCodexPhase, hE]
  by_cases h0 : ((codex calls.length).Output == "") = true
  · simp [h0, eq_of_beq h0]
  · simp [h0]

/-- Claim C1: for a Task phase with iteration cap N of at least one and a
readable plan file, an error-free COMPLETED first result makes the phase
succeed after exactly one executor invocation, and an executor whose
results are all error-free with signals that are neither COMPLETED nor
FAILED makes the phase perform exactly N invocations and fail with the
max-iterations error. -/
theorem claim_C1 (claude : Exec) (readFile : String → Except String String)
    (pf pc : String) (N : Nat) (hN : 1 ≤ N) (hrf : readFile pf = .ok pc) :
    ((claude 0).Error = none ∧ (claude 0).Signal = SignalCompleted →
      (runTaskPhase claude readFile pf N []).1 = .ok () ∧
      (runTaskPhase claude readFile pf N []).2.length = 1) ∧
    ((∀ k, (claude k).Error = none ∧ (claude k).Signal ≠ SignalCompleted ∧
        (claude k).Signal ≠ SignalFailed) →
      (runTaskPhase claude readFile pf N []).1 =
        .error ("max iterations (" ++ toString N ++ ") reached without completion") ∧
      (runTaskPhase claude readFile pf N []).2.length = N) := by
  obtain ⟨r, rfl⟩ : ∃ r, N = r + 1 := ⟨N - 1, by omega⟩
  constructor
  · rintro ⟨hE, hS⟩
    constructor
    · simp [runTaskPhase, taskLoop, buildTaskPrompt, hrf, hE, hS,
        IsTerminalSignal, SignalCompleted, SignalFailed]
    · simp [runTaskPhase, taskLoop, buildTaskPrompt, hrf, hE, hS,
        IsTerminalSignal, SignalCompleted, SignalFailed]
  · intro h
    have h' : ∀ k, (claude k).Error = none ∧
        IsTerminalSignal (claude k).Signal = false :=
      fun k => ⟨(h k).1,
        (IsTerminalSignal_eq_false_iff _).2 ⟨(h k).2.1, (h k).2.2⟩⟩
    have hmain := taskLoop_nonterminal claude readFile pf pc (r + 1) hrf h'
      (r + 1) 1 "" []
    exact ⟨hmain.1, by simpa [runTaskPhase] using hmain.2⟩

/-- Witness for claim C1: with a plan-reading fixture and cap three, an
executor answering COMPLETED at once gives success after one invocation,
and a never-terminal executor gives three invocations and the
max-iterations error. -/
theorem claim_C1_witness :
    ((runTaskPhase execCompleted okRead "plan.md" 3 []).1 = .ok () ∧
     (runTaskPhase execCompleted okRead "plan.md" 3 []).2.length = 1) ∧
    ((runTaskPhase execNeverDone okRead "plan.md" 3 []).1 =
       .error ("max iterations (" ++ toString 3 ++ ") reached without completion") ∧
     (runTaskPhase execNeverDone okRead "plan.md" 3 []).2.length = 3) :=
  ⟨(claim_C1 execCompleted okRead "plan.md" "# Plan\n- [ ] Task 1" 3
      (by omega) rfl).1 ⟨rfl, rfl⟩,
   (claim_C1 execNeverDone okRead "plan.md" "# Plan\n- [ ] Task 1" 3
      (by omega) rfl).2
     (fun _ => ⟨rfl,
       by show ("" : String) ≠ SignalCompleted; decide,
       by show ("" : String) ≠ SignalFailed; decide⟩)⟩

/-- Claim C5 counterexample: a Task phase whose first result is FAILED
with output "disk is full" stops with the fixed failure message, and that
message does not contain the agent's output text. -/
theorem claim_C5_cex :
    (runTaskPhase execFailedLoud okRead "plan.md" 5 []).1 =
      .error "task execution failed (FAILED signal received)" ∧
    ¬ ∃ p q : String,
        "task execution failed (FAILED signal received)" =
          p ++ (execFailedLoud 0).Output ++ q := by
  constructor
  · rfl
  · rw [string_contains_iff]
    decide

/-- Claim C5 as amended: an error-free FAILED result makes the Task phase
stop immediately after that single invocation with the fixed message
about the FAILED signal, and makes the Review phase stop immediately
after that single invocation with its fixed review-failure message; the
result's Output is not part of either message. -/
theorem claim_C5 (claude : Exec) (readFile : String → Except String String)
    (pf pc : String) (N : Nat) (hN : 1 ≤ N) (hrf : readFile pf = .ok pc)
    (prompt : String) (calls : List String) :
    ((claude 0).Error = none → (claude 0).Signal = SignalFailed →
      (runTaskPhase claude readFile pf N []).1 =
        .error "task execution failed (FAILED signal received)" ∧
      (runTaskPhase claude readFile pf N []).2.length = 1) ∧
    ((claude calls.length).Error = none →
      (claude calls.length).Signal = SignalFailed →
      runClaudeReview claude prompt calls =
        (.error "review failed (FAILED signal received)", calls ++ [prompt])) := by
  obtain ⟨r, rfl⟩ : ∃ r, N = r + 1 := ⟨N - 1, by omega⟩
  constructor
  · intro hE hS
    constructor
    · simp [runTaskPhase, taskLoop, buildTaskPrompt, hrf, hE, hS,
        IsTerminalSignal, SignalCompleted, SignalFailed]
    · simp [runTaskPhase, taskLoop, buildTaskPrompt, hrf, hE, hS,
        IsTerminalSignal, SignalCompleted, SignalFailed]
  · intro hE hS
    exact reviewLoop_first_failed claude 9 prompt calls hE hS

/-- Witness for claim C5: the FAILED-emitting executor stops the task
phase after one invocation with the fixed message and stops a review
after one invocation with the fixed review message. -/
theorem claim_C5_witness :
    ((runTaskPhase execFailedLoud okRead "plan.md" 4 []).1 =
       .error "task execution failed (FAILED signal received)" ∧
     (runTaskPhase execFailedLoud okRead "plan.md" 4 []).2.length = 1) ∧
    runClaudeReview execFailedLoud buildFirstReviewPrompt [] =
      (.error "review failed (FAILED signal received)", [buildFirstReviewPrompt]) :=
  ⟨(claim_C5 execFailedLoud okRead "plan.md" "# Plan\n- [ ] Task 1" 4
      (by omega) rfl buildFirstReviewPrompt []).1 rfl rfl,
   (claim_C5 execFailedLoud okRead "plan.md" "# Plan\n- [ ] Task 1" 4
      (by omega) rfl buildFirstReviewPrompt []).2 rfl rfl⟩

/-- Claim C6 counterexample: with a configured task maximum of three, a
review phase against a never-terminal executor still performs ten
invocations before its cap fires, so the review cap is not smaller than
the configured task maximum of that run. -/
theorem claim_C6_cex :
    (runReviewOnly cfgReview3 execNeverDone execCodexQuiet okRead).1 =
      .error ("first review: " ++
        ("max review iterations (" ++ toString maxReviewIterations ++ ") reached")) ∧
    (runReviewOnly cfgReview3 execNeverDone execCodexQuiet okRead).2.1.length = 10 ∧
    cfgReview3.MaxIterations = 3 ∧
    ¬ (runReviewOnly cfgReview3 execNeverDone execCodexQuiet okRead).2.1.length <
        cfgReview3.MaxIterations := by
  refine ⟨?_, ?_, rfl, ?_⟩
  · rfl
  · rfl
  · intro h
    rw [show (runReviewOnly cfgReview3 execNeverDone execCodexQuiet okRead).2.1.length = 10
          from rfl] at h
    simp [cfgReview3] at h

/-- Claim C6 as amended: the Review loop succeeds only on REVIEW_DONE,
fails immediately on FAILED, otherwise iterates, and enforces its own
fixed cap of ten iterations, independent of the configured task maximum
and not necessarily smaller than it; exhausting the cap yields the
distinct max-review-iterations error, different from the task phase's
max-iterations message for every cap value. -/
theorem claim_C6 (claude : Exec) (prompt : String) (calls : List String)
    (cfg : Config) (codex : Exec)
    (readFile : String → Except String String) (m1 m2 : Nat) :
    ((∀ k, (claude k).Error = none ∧ (claude k).Signal ≠ SignalFailed ∧
        (claude k).Signal ≠ SignalReviewDone) →
      (runClaudeReview claude prompt []).1 =
        .error ("max review iterations (" ++ toString maxReviewIterations ++
                ") reached") ∧
      (runClaudeReview claude prompt []).2.length = maxReviewIterations) ∧
    ((claude calls.length).Error = none →
      (claude calls.length).Signal = SignalReviewDone →
      runClaudeReview claude prompt calls = (.ok (), calls ++ [prompt])) ∧
    ((claude calls.length).Error = none →
      (claude calls.length).Signal = SignalFailed →
      runClaudeReview claude prompt calls =
        (.error "review failed (FAILED signal received)", calls ++ [prompt])) ∧
    maxReviewIterations = 10 ∧
    (∀ n : Nat,
      ("max review iterations (" ++ toString maxReviewIterations ++ ") reached"
        : String) ≠
      "max iterations (" ++ toString n ++ ") reached without completion") ∧
    runReviewOnly { cfg with MaxIterations := m1 } claude codex readFile =
      runReviewOnly { cfg with MaxIterations := m2 } claude codex readFile := by
  refine ⟨?_, ?_, ?_, rfl, ?_, rfl⟩
  · intro h
    have h' : ∀ k, (claude k).Error = none ∧
        (claude k).Signal ≠ SignalFailed ∧
        IsReviewDone (claude k).Signal = false := by
      intro k
      refine ⟨(h k).1, (h k).2.1, ?_⟩
      have := (h k).2.2
      simp [IsReviewDone]
      exact this
    have hmain := reviewLoop_nonterminal claude h' maxReviewIterations prompt []
    exact ⟨hmain.1, by simpa [runClaudeReview] using hmain.2⟩
  · intro hE hS
    exact reviewLoop_first_done claude 9 prompt calls hE hS
  · intro hE hS
    exact reviewLoop_first_failed claude 9 prompt calls hE hS
  · intro n h
    have hd : ("max review iterations (" ++ toString maxReviewIterations ++
        ") reached" : String).data.get? 4 =
        ("max iterations (" ++ toString n ++
         ") reached without completion" : String).data.get? 4 :=
      congrArg (fun s => String.data s |>.get? 4) h
    have hR : ("max iterations (" ++ toString n ++
        ") reached without completion" : String).data.get? 4 = some 'i' := by
      have hsplit : ("max iterations (" ++ toString n ++
          ") reached without completion" : String).data =
          ("max iterations (" : String).data ++
          ((toString n : String).data ++
           (") reached without completion" : String).data) := by
        simp [List.append_assoc]
      rw [hsplit, List.get?_append (by decide)]
      rfl
    rw [hR] at hd
    have hL : ("max review iterations (" ++ toString maxReviewIterations ++
        ") reached" : String).data.get? 4 = some 'r' := rfl
    rw [hL] at hd
    simp at hd

/-- Witness for claim C6: a never-terminal executor exhausts the
ten-iteration review cap, a REVIEW_DONE first result succeeds at once,
and a FAILED first result stops at once. -/
theorem claim_C6_witness :
    ((runClaudeReview execNeverDone buildFirstReviewPrompt []).1 =
       .error ("max review iterations (" ++ toString maxReviewIterations ++
               ") reached") ∧
     (runClaudeReview execNeverDone buildFirstReviewPrompt []).2.length =
       maxReviewIterations) ∧
    runClaudeReview execReviewDone buildFirstReviewPrompt [] =
      (.ok (), [buildFirstReviewPrompt]) :=
  ⟨(claim_C6 execNeverDone buildFirstReviewPrompt [] cfgReview3 execCodexQuiet
      okRead 1 2).1
     (fun _ => ⟨rfl,
       by show ("" : String) ≠ SignalFailed; decide,
       by show ("" : String) ≠ SignalReviewDone; decide⟩),
   (claim_C6 execReviewDone buildFirstReviewPrompt [] cfgReview3 execCodexQuiet
      okRead 1 2).2.1 rfl rfl⟩

/-- The continue prompt is its fixed leading text, the output window and
its fixed trailing text. -/
theorem buildContinuePrompt_decomp (o : String) :
    buildContinuePrompt o = contPre ++ contTrunc o ++ contSuf :=
  strAppend_assoc (contPre ++ contTrunc o) "\n\n"
    "Continue executing tasks. Remember to output COMPLETED when done or FAILED if blocked.\n"

/-- Claim C7: the continue prompt embeds exactly the trailing window of
the previous output between two fixed texts: the whole output when its
length is at most 500 characters, and otherwise exactly its last 500
characters, a suffix of the output, with nothing more of it. -/
theorem claim_C7 (o : String) :
    buildContinuePrompt o = contPre ++ contTrunc o ++ contSuf ∧
    (o.length ≤ 500 → contTrunc o = o) ∧
    (500 < o.length →
      (contTrunc o).length = 500 ∧ ∃ p : String, o = p ++ contTrunc o) := by
  refine ⟨buildContinuePrompt_decomp o, ?_, ?_⟩
  · intro h
    rw [contTrunc, if_neg (by omega)]
  · intro h
    constructor
    · rw [contTrunc, if_pos h]
      show (o.data.drop (o.data.length - 500)).length = 500
      rw [List.length_drop]
      have : 500 < o.data.length := h
      omega
    · refine ⟨String.mk (o.data.take (o.data.length - 500)), strExt ?_⟩
      rw [contTrunc, if_pos h]
      show o.data = o.data.take (o.data.length - 500) ++
        o.data.drop (o.data.length - 500)
      rw [List.take_append_drop]

/-- Witness for claim C7: a 501-character output is embedded as exactly
its last 500 characters. -/
theorem claim_C7_witness :
    500 < bigZ.length ∧ (contTrunc bigZ).length = 500 := by
  have h : bigZ.length = 501 := by
    rw [show bigZ.length = (List.replicate 501 'z').length from rfl,
      List.length_replicate]
  exact ⟨by omega, ((claim_C7 bigZ).2.2 (by omega)).1⟩

/-- Claim C10: the codex phase never inspects the result's signal: an
error-free result makes it succeed with the result's output as the
findings, whatever the signal, and only a non-nil error makes it fail,
with the wrapped codex-execution error. -/
theorem claim_C10 (codex : Exec) (calls : List String) :
    ((codex calls.length).Error = none →
      runCodexPhase codex calls =
        (.ok (codex calls.length).Output, calls ++ [buildCodexPrompt])) ∧
    (∀ e, (codex calls.length).Error = some e →
      runCodexPhase codex calls =
        (.error ("codex execution: " ++ e), calls ++ [buildCodexPrompt])) := by
  constructor
  · exact runCodexPhase_ok codex calls
  · intro e hE
    simp [runCodexPhase, hE]

/-- Witness for claim C10: a codex result carrying the FAILED signal and
no error still makes the codex phase succeed, with its non-empty output
as the findings. -/
theorem claim_C10_witness :
    runCodexPhase execCodexFailedSignal [] =
      (.ok (execCodexFailedSignal 0).Output, [buildCodexPrompt]) :=
  (claim_C10 execCodexFailedSignal []).1 rfl

/-- One non-terminal review iteration re-prompts with the continue prompt
built from the result's output. -/
theorem reviewLoop_step_continue (claude : Exec) (r : Nat) (prompt : String)
    (calls : List String) (hE : (claude calls.length).Error = none)
    (hF : (claude calls.length).Signal ≠ SignalFailed)
    (hD : IsReviewDone (claude calls.length).Signal = false) :
    reviewLoop claude (r + 1) prompt calls =
      reviewLoop claude r (buildContinuePrompt (claude calls.length).Output)
        (calls ++ [prompt]) := by
  have hFb : ((claude calls.length).Signal == SignalFailed) = false := by
    simpa using hF
  simp [reviewLoop, hE, hFb, hD]

/-- Claim C9: after a first review result that is neither REVIEW_DONE nor
FAILED, the second prompt sent is buildContinuePrompt of that result's
output; the continue prompt is two fixed texts around the output window,
it mentions COMPLETED and FAILED, its fixed texts never mention
REVIEW_DONE; yet the review loop does not treat COMPLETED as terminal
even though the task loop does. -/
theorem claim_C9 (claude : Exec) (p : String) :
    ((claude 0).Error = none → (claude 0).Signal ≠ SignalFailed →
      IsReviewDone (claude 0).Signal = false →
      (runClaudeReview claude p []).2.get? 1 =
        some (buildContinuePrompt (claude 0).Output)) ∧
    (∀ o, buildContinuePrompt o = contPre ++ contTrunc o ++ contSuf) ∧
    (∃ p1 q1 : String, buildContinuePrompt "" = p1 ++ SignalCompleted ++ q1) ∧
    (∃ p2 q2 : String, buildContinuePrompt "" = p2 ++ SignalFailed ++ q2) ∧
    ¬ (∃ p3 q3 : String, contPre = p3 ++ SignalReviewDone ++ q3) ∧
    ¬ (∃ p4 q4 : String, contSuf = p4 ++ SignalReviewDone ++ q4) ∧
    IsReviewDone SignalCompleted = false ∧
    IsTerminalSignal SignalCompleted = true := by
  refine ⟨?_, fun o => buildContinuePrompt_decomp o, ?_, ?_, ?_, ?_, rfl, rfl⟩
  · intro hE hF hD
    have step := reviewLoop_step_continue claude (8 + 1) p [] hE hF hD
    simp only [List.length_nil] at step
    rw [show runClaudeReview claude p [] =
          reviewLoop claude (8 + 1 + 1) p [] from rfl, step]
    simp only [List.nil_append]
    obtain ⟨rest, hr⟩ :=
      reviewLoop_cons claude 8 (buildContinuePrompt (claude 0).Output) [p]
    rw [hr]
    rfl
  · rw [string_contains_iff]
    decide
  · rw [string_contains_iff]
    decide
  · rw [string_contains_iff]
    decide
  · rw [string_contains_iff]
    decide

/-- Witness for claim C9: after a non-terminal first review result the
second prompt sent is the continue prompt built from its output. -/
theorem claim_C9_witness :
    (runClaudeReview execSlowReview buildFirstReviewPrompt []).2.get? 1 =
      some (buildContinuePrompt (execSlowReview 0).Output) :=
  (claim_C9 execSlowReview buildFirstReviewPrompt).1 rfl
    (by show ("" : String) ≠ SignalFailed; decide) rfl

/-- A review run sends the prompt it is given as its first executor
invocation, whatever happens afterwards. -/
theorem runClaudeReview_snd_cons (claude : Exec) (prompt : String)
    (calls : List String) :
    ∃ rest, (runClaudeReview claude prompt calls).2 = calls ++ prompt :: rest := by
  show ∃ rest, (reviewLoop claude (9 + 1) prompt calls).2 = calls ++ prompt :: rest
  exact reviewLoop_cons claude 9 prompt calls

/-- Claim C2 counterexample: in codex-only mode with non-empty findings,
an agent that needs two review iterations makes the pipeline succeed
after two follow-up Review invocations, not exactly one. -/
theorem claim_C2_cex :
    (runCodexOnly cfgReview3 execSlowReview execCodexFinding okRead).1 = .ok () ∧
    (runCodexOnly cfgReview3 execSlowReview execCodexFinding okRead).2.1.length = 2 ∧
    ¬ (runCodexOnly cfgReview3 execSlowReview execCodexFinding okRead).2.1.length = 1 := by
  refine ⟨rfl, rfl, ?_⟩
  intro h
  rw [show (runCodexOnly cfgReview3 execSlowReview execCodexFinding
        okRead).2.1.length = 2 from rfl] at h
  exact absurd h (by decide)

set_option maxRecDepth 4000 in
/-- Claim C2 as amended: in each of the three modes, an error-free codex
result with empty output leads to zero follow-up Review invocations and
success at that point; with non-empty output at least one follow-up
Review invocation occurs, the first one receiving the second-review
prompt, which contains the findings verbatim, and exactly one occurs
when its first result is an error-free REVIEW_DONE. -/
theorem claim_C2 (claude codex : Exec)
    (readFile : String → Except String String) (cfg : Config)
    (c0 c1 : List String) (hcodex : (codex 0).Error = none) :
    (((codex 0).Output = "" →
        runCodexOnly cfg claude codex readFile =
          (.ok (), [], [buildCodexPrompt])) ∧
     ((codex 0).Output ≠ "" →
        (∃ rest, (runCodexOnly cfg claude codex readFile).2.1 =
           buildSecondReviewPrompt (codex 0).Output :: rest) ∧
        (∃ p q : String, buildSecondReviewPrompt (codex 0).Output =
           p ++ (codex 0).Output ++ q) ∧
        ((claude 0).Error = none → (claude 0).Signal = SignalReviewDone →
          runCodexOnly cfg claude codex readFile =
            (.ok (), [buildSecondReviewPrompt (codex 0).Output],
             [buildCodexPrompt])))) ∧
    (runClaudeReview claude buildFirstReviewPrompt [] = (.ok (), c1) →
      ((codex 0).Output = "" →
        runReviewOnly cfg claude codex readFile =
          (.ok (), c1, [buildCodexPrompt])) ∧
      ((codex 0).Output ≠ "" →
        (∃ rest, (runReviewOnly cfg claude codex readFile).2.1 =
           c1 ++ buildSecondReviewPrompt (codex 0).Output :: rest) ∧
        ((claude c1.length).Error = none →
         (claude c1.length).Signal = SignalReviewDone →
          runReviewOnly cfg claude codex readFile =
            (.ok (), c1 ++ [buildSecondReviewPrompt (codex 0).Output],
             [buildCodexPrompt])))) ∧
    (cfg.PlanFile ≠ "" →
     runTaskPhase claude readFile cfg.PlanFile cfg.MaxIterations [] =
       (.ok (), c0) →
     runClaudeReview claude buildFirstReviewPrompt c0 = (.ok (), c1) →
      ((codex 0).Output = "" →
        runFull cfg claude codex readFile = (.ok (), c1, [buildCodexPrompt])) ∧
      ((codex 0).Output ≠ "" →
        (∃ rest, (runFull cfg claude codex readFile).2.1 =
           c1 ++ buildSecondReviewPrompt (codex 0).Output :: rest) ∧
        ((claude c1.length).Error = none →
         (claude c1.length).Signal = SignalReviewDone →
          runFull cfg claude codex readFile =
            (.ok (), c1 ++ [buildSecondReviewPrompt (codex 0).Output],
             [buildCodexPrompt])))) := by
  have hcx : runCodexPhase codex [] =
      (.ok (codex 0).Output, [buildCodexPrompt]) := by
    simpa using runCodexPhase_ok codex [] hcodex
  have hcontain : ∃ p q : String,
      buildSecondReviewPrompt (codex 0).Output =
        p ++ (codex 0).Output ++ q := by
    refine ⟨"You are reviewing code based on external analysis findings.\n\n" ++
      "## Codex Analysis Findings\n\n",
      "\n\n## Instructions\n\n" ++
      "1. Review each finding from the Codex analysis\n" ++
      "2. For valid issues, implement fixes directly\n" ++
      "3. For false positives or non-issues, skip them\n" ++
      "4. Run tests after making fixes\n" ++
      "5. When all valid findings are addressed, output REVIEW_DONE\n" ++
      "6. If you encounter a blocking issue, output FAILED\n\n" ++
      "Important: Only output REVIEW_DONE or FAILED as terminal signals.\n",
      strExt ?_⟩
    simp [buildSecondReviewPrompt,
      show ∀ a b : String, (a ++ b).data = a.data ++ b.data from fun _ _ => rfl,
      List.append_assoc]
  refine ⟨⟨?_, ?_⟩, ?_, ?_⟩
  · intro h0
    rw [h0] at hcx
    simp [runCodexOnly, hcx]
  · intro h0
    have hb : ((codex 0).Output == "") = false := by simpa using h0
    refine ⟨?_, hcontain, ?_⟩
    · obtain ⟨rest, htr⟩ := runClaudeReview_snd_cons claude
        (buildSecondReviewPrompt (codex 0).Output) []
      refine ⟨rest, ?_⟩
      rcases hrev : runClaudeReview claude
        (buildSecondReviewPrompt (codex 0).Output) [] with ⟨res, tr⟩
      rw [hrev] at htr
      simp at htr
      cases res with
      | error e => simp [runCodexOnly, hcx, hb, hrev, htr]
      | ok u => simp [runCodexOnly, hcx, hb, hrev, htr]
    · intro hE hS
      have hrev : runClaudeReview claude
          (buildSecondReviewPrompt (codex 0).Output) [] =
          (.ok (), [] ++ [buildSecondReviewPrompt (codex 0).Output]) :=
        reviewLoop_first_done claude 9 _ [] hE hS
      simp [runCodexOnly, hcx, hb, hrev]
  · intro h1
    refine ⟨?_, ?_⟩
    · intro h0
      rw [h0] at hcx
      simp [runReviewOnly, h1, hcx]
    · intro h0
      have hb : ((codex 0).Output == "") = false := by simpa using h0
      refine ⟨?_, ?_⟩
      · obtain ⟨rest, htr⟩ := runClaudeReview_snd_cons claude
          (buildSecondReviewPrompt (codex 0).Output) c1
        refine ⟨rest, ?_⟩
        rcases hrev : runClaudeReview claude
          (buildSecondReviewPrompt (codex 0).Output) c1 with ⟨res, tr⟩
        rw [hrev] at htr
        simp at htr
        cases res with
        | error e => simp [runReviewOnly, h1, hcx, hb, hrev, htr]
        | ok u => simp [runReviewOnly, h1, hcx, hb, hrev, htr]
      · intro hE hS
        have hrev : runClaudeReview claude
            (buildSecondReviewPrompt (codex 0).Output) c1 =
            (.ok (), c1 ++ [buildSecondReviewPrompt (codex 0).Output]) :=
          reviewLoop_first_done claude 9 _ c1 hE hS
        simp [runReviewOnly, h1, hcx, hb, hrev]
  · intro hp htask h1
    have hpb : (cfg.PlanFile == "") = false := by simpa using hp
    refine ⟨?_, ?_⟩
    · intro h0
      rw [h0] at hcx
      simp [runFull, hpb, htask, h1, hcx]
    · intro h0
      have hb : ((codex 0).Output == "") = false := by simpa using h0
      refine ⟨?_, ?_⟩
      · obtain ⟨rest, htr⟩ := runClaudeReview_snd_cons claude
          (buildSecondReviewPrompt (codex 0).Output) c1
        refine ⟨rest, ?_⟩
        rcases hrev : runClaudeReview claude
          (buildSecondReviewPrompt (codex 0).Output) c1 with ⟨res, tr⟩
        rw [hrev] at htr
        simp at htr
        cases res with
        | error e => simp [runFull, hpb, htask, h1, hcx, hb, hrev, htr]
        | ok u => simp [runFull, hpb, htask, h1, hcx, hb, hrev, htr]
      · intro hE hS
        have hrev : runClaudeReview claude
            (buildSecondReviewPrompt (codex 0).Output) c1 =
            (.ok (), c1 ++ [buildSecondReviewPrompt (codex 0).Output]) :=
          reviewLoop_first_done claude 9 _ c1 hE hS
        simp [runFull, hpb, htask, h1, hcx, hb, hrev]

/-- Witness for claim C2 in codex-only mode: empty findings give success
with zero follow-up review invocations; non-empty findings with an agent
answering REVIEW_DONE at once give success after exactly one follow-up
invocation, whose prompt embeds the findings. -/
theorem claim_C2_witness :
    runCodexOnly cfgReview3 execReviewDone execCodexQuiet okRead =
      (.ok (), [], [buildCodexPrompt]) ∧
    runCodexOnly cfgReview3 execReviewDone execCodexFinding okRead =
      (.ok (), [buildSecondReviewPrompt (execCodexFinding 0).Output],
       [buildCodexPrompt]) ∧
    (∃ p q : String, buildSecondReviewPrompt (execCodexFinding 0).Output =
       p ++ (execCodexFinding 0).Output ++ q) :=
  ⟨((claim_C2 execReviewDone execCodexQuiet okRead cfgReview3 [] [] rfl).1).1 rfl,
   (((claim_C2 execReviewDone execCodexFinding okRead cfgReview3 [] [] rfl).1).2
      (by show ("found issue in foo.go" : String) ≠ ""; decide)).2.2 rfl rfl,
   (((claim_C2 execReviewDone execCodexFinding okRead cfgReview3 [] [] rfl).1).2
      (by show ("found issue in foo.go" : String) ≠ ""; decide)).2.1⟩

/-- A non-empty string has a length whose zero test is false. -/
theorem strLengthBeq_false {c : String} (hc : c ≠ "") : (c.length == 0) = false := by
  obtain ⟨d⟩ := c
  cases d with
  | nil => exact absurd rfl hc
  | cons a as => rfl

/-- Claim C8: in full mode an unset plan file fails immediately with the
configuration error and zero executor invocations; a set but unreadable
plan file makes the first task iteration fail with the wrapped
read-plan-file error, still before any executor invocation; review and
codex-only modes ignore the plan file and its reader entirely. -/
theorem claim_C8 (claude codex : Exec)
    (readFile : String → Except String String) (cfg : Config) (e : String) :
    (cfg.PlanFile = "" →
      runFull cfg claude codex readFile =
        (.error "plan file required for full mode", [], [])) ∧
    (cfg.PlanFile ≠ "" → 1 ≤ cfg.MaxIterations →
      readFile cfg.PlanFile = .error e →
      runFull cfg claude codex readFile =
        (.error ("task phase: " ++ ("read plan file: " ++ e)), [], [])) ∧
    (∀ rf2 : String → Except String String, ∀ x y : String,
      runReviewOnly { cfg with PlanFile := x } claude codex readFile =
        runReviewOnly { cfg with PlanFile := y } claude codex rf2 ∧
      runCodexOnly { cfg with PlanFile := x } claude codex readFile =
        runCodexOnly { cfg with PlanFile := y } claude codex rf2) := by
  refine ⟨?_, ?_, fun rf2 x y => ⟨rfl, rfl⟩⟩
  · intro hp
    simp [runFull, hp]
  · intro hp hN hrf
    have hpb : (cfg.PlanFile == "") = false := by simpa using hp
    have htask : runTaskPhase claude readFile cfg.PlanFile cfg.MaxIterations [] =
        (.error ("read plan file: " ++ e), []) := by
      obtain ⟨r, hr⟩ : ∃ r, cfg.MaxIterations = r + 1 :=
        ⟨cfg.MaxIterations - 1, by omega⟩
      rw [runTaskPhase, hr]
      simp [taskLoop, buildTaskPrompt, hrf]
    simp [runFull, hpb, htask]

/-- Witness for claim C8: an empty plan-file setting yields the
configuration error, and a failing reader yields the wrapped
read-plan-file error, both with empty invocation traces. -/
theorem claim_C8_witness :
    runFull { cfgFull10 with PlanFile := "" } execCompleted execCodexQuiet okRead =
      (.error "plan file required for full mode", [], []) ∧
    runFull cfgFull10 execCompleted execCodexQuiet errRead =
      (.error ("task phase: " ++
        ("read plan file: " ++ "open plan.md: no such file or directory")),
       [], []) :=
  ⟨(claim_C8 execCompleted execCodexQuiet okRead
      { cfgFull10 with PlanFile := "" } "").1 rfl,
   (claim_C8 execCompleted execCodexQuiet errRead cfgFull10
      "open plan.md: no such file or directory").2.1
     (by show ("plan.md" : String) ≠ ""; decide) (by show 1 ≤ 10; omega) rfl⟩

/-- Claim C3, evaluated at the divergent input: on the byte stream
a CR CR LF the reader delivers "a", stripping a carriage return that
belongs to the line content, while the claim (and the plan's own
matching-ScanLines requirement) demands "a CR" with only the CR LF
terminator removed; on inputs without trailing carriage returns inside
the content the two agree. -/
theorem claim_C3_bug :
    readLines ('a' :: '\r' :: '\r' :: '\n' :: []) = [['a']] ∧
    claimLines ('a' :: '\r' :: '\r' :: '\n' :: []) = [['a', '\r']] ∧
    readLines ('a' :: '\r' :: '\r' :: '\n' :: []) ≠
      claimLines ('a' :: '\r' :: '\r' :: '\n' :: []) ∧
    readLines ('a' :: 'b' :: '\r' :: '\n' :: 'c' :: []) = [['a', 'b'], ['c']] ∧
    claimLines ('a' :: 'b' :: '\r' :: '\n' :: 'c' :: []) = [['a', 'b'], ['c']] ∧
    readLines ('x' :: '\n' :: '\n' :: 'y' :: []) = [['x'], [], ['y']] ∧
    claimLines ('x' :: '\n' :: '\n' :: 'y' :: []) = [['x'], [], ['y']] := by
  refine ⟨?_, ?_, ?_, ?_, ?_, ?_, ?_⟩ <;> decide

/-- Claim C4: opening the progress log on a missing or empty file writes
the fresh header alone; on a non-empty file detected as completed it
truncates and writes the fresh header alone; on a non-empty file not
detected as completed it appends the restart separator after all prior
bytes; and any file ending in the Close completion footer, with
timestamp and elapsed text of combined length at most 240, is detected
as completed. -/
theorem claim_C4 (c header sep body ts el : String) :
    (openProgress none header sep = header ∧
     openProgress (some "") header sep = header) ∧
    (c ≠ "" → isProgressCompleted c = true →
      openProgress (some c) header sep = header) ∧
    (c ≠ "" → isProgressCompleted c = false →
      openProgress (some c) header sep = c ++ sep) ∧
    (ts.length + el.length ≤ 240 →
      isProgressCompleted (body ++ mkCompletionFooter ts el) = true) := by
  refine ⟨⟨rfl, rfl⟩, ?_, ?_, ?_⟩
  · intro hc hcomp
    simp [openProgress, strLengthBeq_false hc, hcomp]
  · intro hc hcomp
    simp [openProgress, strLengthBeq_false hc, hcomp]
  · intro hlen
    have hfd : (mkCompletionFooter ts el).data =
        ("Completed: " : String).data ++ ts.data ++ (" (" : String).data ++
          el.data ++ (")\n" : String).data := rfl
    have l1 : ("Completed: " : String).data.length = 11 := by decide
    have l2 : (" (" : String).data.length = 2 := by decide
    have l3 : (")\n" : String).data.length = 2 := by decide
    have hflen : (mkCompletionFooter ts el).data.length ≤ 255 := by
      rw [hfd]
      simp [List.length_append]
      omega
    have hd : (body.data ++ (mkCompletionFooter ts el).data).length - 256 ≤
        body.data.length := by
      simp only [List.length_append]
      omega
    show hasInfixB completedMarker.data
      ((body.data ++ (mkCompletionFooter ts el).data).drop
        ((body.data ++ (mkCompletionFooter ts el).data).length - 256)) = true
    rw [List.drop_append_of_le_length hd, hfd,
      show ("Completed: " : String).data = completedMarker.data ++ [' '] by decide]
    simp only [List.append_assoc]
    rw [← List.append_assoc]
    exact hasInfixB_of_append _ _ _

/-- Witness for claim C4: a crashed prior log gets the separator appended
with content preserved, a prior log ending in a Close footer is detected
as completed and replaced by the fresh header. -/
theorem claim_C4_witness :
    openProgress (some "entry one\n") "HDR" "RESTART" =
      "entry one\n" ++ "RESTART" ∧
    isProgressCompleted ("body\n" ++ mkCompletionFooter "2026-02-18 10:00:00" "5m3s") = true ∧
    openProgress (some ("body\n" ++ mkCompletionFooter "2026-02-18 10:00:00" "5m3s"))
      "HDR" "RESTART" = "HDR" := by
  have hcomp : isProgressCompleted
      ("body\n" ++ mkCompletionFooter "2026-02-18 10:00:00" "5m3s") = true :=
    (claim_C4 "" "HDR" "RESTART" "body\n" "2026-02-18 10:00:00" "5m3s").2.2.2
      (by decide)
  refine ⟨?_, hcomp, ?_⟩
  · exact (claim_C4 "entry one\n" "HDR" "RESTART" "" "" "").2.2.1
      (by decide) (by decide)
  · exact (claim_C4 ("body\n" ++ mkCompletionFooter "2026-02-18 10:00:00" "5m3s")
      "HDR" "RESTART" "" "" "").2.1 (by decide) hcomp

end Ralphex
